import Mathlib

/-!
Verification of the generic save/load (serialization) mechanism:
the type-tagged envelope format, the generic `toJSON` / `fromJSON`
strategies, and the `Reviver` hook that resolves constructor tags
against a registry and a legacy migration table.

JavaScript values are embedded as the inductive `JSValue`; JS objects
are association lists of (key, value) pairs in insertion order (keys
unique, as in JS).  A property read of an absent key yields `undefined`,
and assigning `undefined` to a key creates the key (as in JS).
-/

namespace SaveRevive

/-- A JavaScript runtime value, as relevant to the serialization code:
`undefined` is the JS value `undefined`; `obj` is an object given by its own
enumerable string-keyed properties in insertion order. -/
inductive JSValue where
  | undefined : JSValue
  | null : JSValue
  | bool (b : Bool) : JSValue
  | num (n : Int) : JSValue
  | str (s : String) : JSValue
  | arr (elems : List JSValue) : JSValue
  | obj (fields : List (String × JSValue)) : JSValue

/-- The JS `in` / property-access primitive: the value of key `k` when the
key is present (first occurrence; JS objects have unique keys). -/
def getField : List (String × JSValue) → String → Option JSValue
  | [], _ => none
  | p :: rest, k => if p.1 = k then some p.2 else getField rest k

/-- JS property read `o[k]`: an absent key reads as `undefined`. -/
def lookupField (fields : List (String × JSValue)) (k : String) : JSValue :=
  (getField fields k).getD .undefined

/-- JS property assignment `o[k] = v`: overwrites in place when the key is
present, appends (insertion order) when it is not.  Assigning `undefined`
does create the key. -/
def setField : List (String × JSValue) → String → JSValue → List (String × JSValue)
  | [], k, v => [(k, v)]
  | p :: rest, k, v => if p.1 = k then (k, v) :: rest else p :: setField rest k v

/-- The JS test `v === undefined`. -/
def isUndefined : JSValue → Bool
  | .undefined => true
  | _ => false

/-- The wire envelope `IReviverValue`: `{ ctor: string, data: unknown }`. -/
structure IReviverValue where
  ctor : String
  data : JSValue

/-- Errors thrown by the mechanism. -/
inductive SerError where
  | unknownConstructor (tag : String) : SerError
  | validationError : SerError
  | typeAssertion : SerError

/-- `isReviverValue`: the value is a non-null object carrying a `ctor`
property whose value is a string (any string) and a `data` property
(present with any value, `undefined` included).  Returns the parsed
envelope when the shape matches. -/
def isReviverValue : JSValue → Option IReviverValue
  | .obj fields =>
    match getField fields "ctor", getField fields "data" with
    | some (.str s), some d => some ⟨s, d⟩
    | _, _ => none
  | _ => none

/-- A registry entry (the source's `JsonableClass` capability): a
`fromJSON` reconstruction function and an optional validation schema.
The schema is modelled as the predicate its structural check decides. -/
structure JsonableCtor where
  fromJSON : IReviverValue → JSValue
  validationData : Option (JSValue → Bool)

/-- The constructor registry `constructorsForReviver`, a process-wide
mapping from tag to capability; modelled as a parameter since it is
populated at startup by registration calls outside this module. -/
def Registry : Type := String → Option JsonableCtor

/-- The retired tags resolved by transparent unwrap in `Reviver`'s legacy
switch: AllServersMap, Industry, Employee, Company, Faction. -/
def legacyUnwrapTags : List String :=
  ["AllServersMap", "Industry", "Employee", "Company", "Faction"]

/-- The `console.warn` message emitted on the legacy unwrap branch. -/
def legacyWarning (tag : String) : String :=
  "Legacy load type " ++ tag ++ " converted to expected format while loading."

/-- Outcome of one `Reviver` call: the substituted value, the compatibility
warnings logged during the call, and whether a registered capability's
`fromJSON` was invoked (i.e. whether an instance was constructed). -/
structure ReviverResult where
  value : JSValue
  warnings : List String
  fromJSONInvoked : Bool

/-- Modelled from the spec: `validateObject` (module `./Validator`, not
among the provided sources) checks the reconstructed instance against the
entry's declared schema; a structural mismatch raises a Validation error. -/
def validateObject (obj : JSValue) (check : JSValue → Bool) : Except SerError Unit :=
  if check obj then .ok () else .error .validationError

/-- The revival hook `Reviver(_key, value)`.  `registry` stands for the
process-wide `constructorsForReviver` map and `loadActionIdentifier` for
the migration function imported from `../Bladeburner/utils` (not among the
provided sources; the spec states migration functions are pure
`data -> value` maps, so it is a parameter of that type). -/
def Reviver (registry : Registry) (loadActionIdentifier : JSValue → JSValue)
    (_key : String) (value : JSValue) : Except SerError ReviverResult :=
  match isReviverValue value with
  | none => .ok ⟨value, [], false⟩
  | some rv =>
    match registry rv.ctor with
    | none =>
      if rv.ctor ∈ legacyUnwrapTags then
        .ok ⟨rv.data, [legacyWarning rv.ctor], false⟩
      else if rv.ctor = "ActionIdentifier" then
        .ok ⟨loadActionIdentifier rv.data, [], false⟩
      else
        .error (.unknownConstructor rv.ctor)
    | some ctor =>
      let o := ctor.fromJSON rv
      match ctor.validationData with
      | some check =>
        match validateObject o check with
        | .ok _ => .ok ⟨o, [], true⟩
        | .error e => .error e
      | none => .ok ⟨o, [], true⟩

/-- `Generic_toJSON(ctorName, obj, keys?)`: build the envelope.  With a
key list, copy exactly those keys from `obj` into a fresh object (a read
of a key absent from `obj` yields `undefined`, and the assignment then
creates the key holding `undefined`); otherwise copy every own enumerable
entry of `obj`. -/
def Generic_toJSON (ctorName : String) (o : List (String × JSValue))
    (keys : Option (List String)) : IReviverValue :=
  match keys with
  | some ks =>
    ⟨ctorName, .obj (ks.foldl (fun d k => setField d k (lookupField o k)) [])⟩
  | none =>
    ⟨ctorName, .obj (o.foldl (fun d p => setField d p.1 p.2) [])⟩

/-- Modelled from the spec: `objectAssert` (module `./helpers/typeAssertion`,
not among the provided sources) requires the raw data to be a non-null
structured (object) value and raises a TypeAssertion error otherwise. -/
def objectAssert : JSValue → Except SerError (List (String × JSValue))
  | .obj fields => .ok fields
  | _ => .error .typeAssertion

/-- `Generic_fromJSON(ctor, data, keys?)`: assert `data` is structured,
default-construct the instance (`ctorDefault` is the field state produced
by `new ctor()`), then copy fields from the data onto it.  With a key
list, only listed keys are copied and a key whose value in the data is
`undefined` is skipped; without one, every entry of the data is assigned
unconditionally. -/
def Generic_fromJSON (ctorDefault : List (String × JSValue)) (data : JSValue)
    (keys : Option (List String)) : Except SerError (List (String × JSValue)) :=
  match objectAssert data with
  | .error e => .error e
  | .ok d =>
    match keys with
    | some ks =>
      .ok (ks.foldl (fun o k =>
        if isUndefined (lookupField d k) then o else setField o k (lookupField d k)) ctorDefault)
    | none =>
      .ok (d.foldl (fun o p => setField o p.1 p.2) ctorDefault)

/-- A sample validation schema check (the spec's example: field must be
numeric), used to exercise the validation gate on a concrete registry. -/
def sampleCheck : JSValue → Bool
  | .num _ => true
  | _ => false

/-- A sample registered capability whose `fromJSON` returns the envelope's
data and which declares `sampleCheck` as its validation schema. -/
def sampleEntry : JsonableCtor := ⟨fun rv => rv.data, some sampleCheck⟩

/-- A sample registry holding exactly one registered tag, "Widget". -/
def sampleRegistry : Registry :=
  fun t => if t = "Widget" then some sampleEntry else none

/-! ## Association-list lemmas -/

theorem getField_setField (fs : List (String × JSValue)) (k : String) (v : JSValue)
    (k' : String) :
    getField (setField fs k v) k' = if k' = k then some v else getField fs k' := by
  induction fs with
  | nil =>
    rcases eq_or_ne k' k with h | h
    · subst h; simp [setField, getField]
    · simp [setField, getField, h, Ne.symm h]
  | cons p rest ih =>
    rcases eq_or_ne p.1 k with hp | hp
    · rcases eq_or_ne k' k with h | h
      · subst h; simp [setField, hp, getField]
      · simp [setField, hp, getField, h, Ne.symm h]
    · rcases eq_or_ne p.1 k' with hq | hq
      · have h3 : k' ≠ k := hq ▸ hp
        simp [setField, hp, getField, hq, h3]
      · simp [setField, hp, getField, hq, ih]

theorem lookupField_setField (fs : List (String × JSValue)) (k : String) (v : JSValue)
    (k' : String) :
    lookupField (setField fs k v) k' = if k' = k then v else lookupField fs k' := by
  simp only [lookupField, getField_setField]
  by_cases h : k' = k <;> simp [h]

theorem getField_eq_none_of_not_mem (l : List (String × JSValue)) (k : String)
    (h : k ∉ l.map Prod.fst) : getField l k = none := by
  induction l with
  | nil => rfl
  | cons p rest ih =>
    simp only [List.map_cons, List.mem_cons] at h
    push_neg at h
    simp only [getField, if_neg (fun hp : p.1 = k => h.1 hp.symm)]
    exact ih h.2

/-- Folding `d[k] = f k` over a key list (the `Generic_toJSON` allow-list
loop): afterwards, a key of the list holds `f k` and every other key is
untouched. -/
theorem getField_foldl_save (ks : List String) (f : String → JSValue)
    (acc : List (String × JSValue)) (k : String) :
    getField (ks.foldl (fun d k' => setField d k' (f k')) acc) k =
      if k ∈ ks then some (f k) else getField acc k := by
  induction ks generalizing acc with
  | nil => simp
  | cons k' rest ih =>
    simp only [List.foldl_cons, ih, getField_setField, List.mem_cons]
    by_cases hr : k ∈ rest
    · simp [hr]
    · by_cases he : k = k' <;> simp [hr, he]

/-- Folding the `Generic_fromJSON` allow-list loop (skip keys whose data
value is `undefined`, otherwise assign): afterwards, a key of the list
with a defined data value holds that value and every other key is
untouched. -/
theorem getField_foldl_load (ks : List String) (d : List (String × JSValue))
    (acc : List (String × JSValue)) (k : String) :
    getField (ks.foldl (fun o k' =>
        if isUndefined (lookupField d k') then o else setField o k' (lookupField d k')) acc) k =
      if k ∈ ks ∧ isUndefined (lookupField d k) = false then some (lookupField d k)
      else getField acc k := by
  induction ks generalizing acc with
  | nil => simp
  | cons k' rest ih =>
    simp only [List.foldl_cons, ih, List.mem_cons]
    by_cases hu : isUndefined (lookupField d k') = true
    · simp only [if_pos hu]
      by_cases hr : k ∈ rest ∧ isUndefined (lookupField d k) = false
      · simp [hr]
      · simp only [if_neg hr]
        by_cases he : k = k'
        · subst he; simp [hu]
        · simp [he, hr]
    · simp only [if_neg hu, getField_setField]
      by_cases hr : k ∈ rest ∧ isUndefined (lookupField d k) = false
      · simp [hr]
      · simp only [if_neg hr]
        by_cases he : k = k'
        · subst he
          simp only [Bool.not_eq_true] at hu
          simp [hu] at hr
          simp [hu, hr]
        · simp [he, hr]

/-- Folding `o[k] = v` over the entries of an object with unique keys (the
no-allow-list loops): afterwards, a key of the object holds its value
there and every other key is untouched. -/
theorem getField_foldl_entries (l : List (String × JSValue))
    (acc : List (String × JSValue)) (k : String)
    (hnd : (l.map Prod.fst).Nodup) :
    getField (l.foldl (fun o p => setField o p.1 p.2) acc) k =
      match getField l k with
      | some v => some v
      | none => getField acc k := by
  induction l generalizing acc with
  | nil => simp [getField]
  | cons p rest ih =>
    simp only [List.map_cons, List.nodup_cons] at hnd
    simp only [List.foldl_cons, ih _ hnd.2, getField_setField, getField]
    rcases eq_or_ne p.1 k with hp | hp
    · subst hp
      rw [getField_eq_none_of_not_mem rest p.1 hnd.1]
      simp
    · rw [if_neg hp]
      cases getField rest k <;> simp [Ne.symm hp]

theorem isUndefined_eq_false (v : JSValue) : isUndefined v = false ↔ v ≠ .undefined := by
  cases v <;> simp [isUndefined]

/-- `lookupField` view of the `Generic_toJSON` allow-list loop. -/
theorem lookupField_foldl_save (ks : List String) (f : String → JSValue)
    (acc : List (String × JSValue)) (k : String) :
    lookupField (ks.foldl (fun d k' => setField d k' (f k')) acc) k =
      if k ∈ ks then f k else lookupField acc k := by
  rw [lookupField, getField_foldl_save]
  by_cases h : k ∈ ks <;> simp [h, lookupField]

/-- `lookupField` view of the `Generic_fromJSON` allow-list loop. -/
theorem lookupField_foldl_load (ks : List String) (d acc : List (String × JSValue))
    (k : String) :
    lookupField (ks.foldl (fun o k' =>
        if isUndefined (lookupField d k') then o else setField o k' (lookupField d k')) acc) k =
      if k ∈ ks ∧ isUndefined (lookupField d k) = false then lookupField d k
      else lookupField acc k := by
  by_cases h : k ∈ ks ∧ isUndefined (lookupField d k) = false
  · rw [lookupField, getField_foldl_load, if_pos h, if_pos h]; rfl
  · rw [lookupField, getField_foldl_load, if_neg h, if_neg h]; rfl

/-- `lookupField` view of the entry-copy loops. -/
theorem lookupField_foldl_entries (l acc : List (String × JSValue)) (k : String)
    (hnd : (l.map Prod.fst).Nodup) :
    lookupField (l.foldl (fun o p => setField o p.1 p.2) acc) k =
      (getField l k).getD (lookupField acc k) := by
  rw [lookupField, getField_foldl_entries l acc k hnd]
  cases getField l k <;> simp [lookupField]

/-! ## Claim theorems -/

/-- C2: for every value that is a well-formed envelope whose tag string is
found neither in the constructor registry nor in the legacy migration
table (the unwrap tags and "ActionIdentifier"), `Reviver` raises the
Unknown-Constructor error and returns no value, aborting the load. -/
theorem reviver_unknown_constructor_raises (registry : Registry)
    (loadActionIdentifier : JSValue → JSValue) (key : String) (value : JSValue)
    (rv : IReviverValue) (hrv : isReviverValue value = some rv)
    (hreg : registry rv.ctor = none)
    (hunw : rv.ctor ∉ legacyUnwrapTags) (hmig : rv.ctor ≠ "ActionIdentifier") :
    Reviver registry loadActionIdentifier key value =
      .error (.unknownConstructor rv.ctor) := by
  simp [Reviver, hrv, hreg, hunw, hmig]

/-- Witness for C2: reviving an envelope with the unregistered tag
"NotARealType" under a registry with no entries raises the error. -/
theorem reviver_unknown_constructor_raises_witness :
    Reviver (fun _ => none) id "" (.obj [("ctor", .str "NotARealType"), ("data", .obj [])]) =
      .error (.unknownConstructor "NotARealType") :=
  reviver_unknown_constructor_raises (fun _ => none) id ""
    (.obj [("ctor", .str "NotARealType"), ("data", .obj [])])
    ⟨"NotARealType", .obj []⟩ rfl rfl (by decide) (by decide)

/-- C3 counterexample: the claim says an object whose `ctor` field is the
empty string is not a well-formed envelope and is returned unchanged, but
`isReviverValue` accepts any string-valued `ctor` (no non-emptiness
check), so `Reviver` treats the object as an envelope and raises the
Unknown-Constructor error instead of passing it through. -/
theorem reviver_empty_ctor_not_passthrough :
    Reviver (fun _ => none) id "" (.obj [("ctor", .str ""), ("data", .null)]) =
      .error (.unknownConstructor "") ∧
    Reviver (fun _ => none) id "" (.obj [("ctor", .str ""), ("data", .null)]) ≠
      .ok ⟨.obj [("ctor", .str ""), ("data", .null)], [], false⟩ := by
  constructor
  · rfl
  · intro h
    rw [(rfl : Reviver (fun _ => none) id "" (.obj [("ctor", .str ""), ("data", .null)]) =
      .error (.unknownConstructor ""))] at h
    exact Except.noConfusion h

/-- C3 (amended): for every input value that is not a well-formed envelope
— where well-formed means an object carrying a `ctor` that is a string
(possibly empty) and a `data` member that is present — `Reviver` returns
that value unchanged; an object whose `ctor` field is the empty string IS
treated as a well-formed envelope and is not passed through. -/
theorem reviver_passthrough_non_envelope (registry : Registry)
    (loadActionIdentifier : JSValue → JSValue) (key : String) (value : JSValue)
    (h : isReviverValue value = none) :
    Reviver registry loadActionIdentifier key value = .ok ⟨value, [], false⟩ := by
  simp [Reviver, h]

/-- Witness for C3 (amended): a plain string is passed through unchanged. -/
theorem reviver_passthrough_non_envelope_witness :
    Reviver (fun _ => none) id "k" (.str "hello") = .ok ⟨.str "hello", [], false⟩ :=
  reviver_passthrough_non_envelope (fun _ => none) id "k" (.str "hello") rfl

/-- C4: for every envelope whose tag matches a legacy unwrap entry (and is
not registered), `Reviver` returns the envelope's `data` member verbatim,
emits exactly one compatibility warning, and invokes no `fromJSON`
capability (no instance constructed). -/
theorem reviver_legacy_unwrap (registry : Registry)
    (loadActionIdentifier : JSValue → JSValue) (key : String) (value : JSValue)
    (rv : IReviverValue) (hrv : isReviverValue value = some rv)
    (hreg : registry rv.ctor = none) (hmem : rv.ctor ∈ legacyUnwrapTags) :
    Reviver registry loadActionIdentifier key value =
      .ok ⟨rv.data, [legacyWarning rv.ctor], false⟩ := by
  simp [Reviver, hrv, hreg, hmem]

/-- Witness for C4: the spec's example `{"ctor":"Employee","data":{"x":1}}`
comes back as the plain value `{"x":1}` with one warning and no instance. -/
theorem reviver_legacy_unwrap_witness :
    Reviver (fun _ => none) id ""
        (.obj [("ctor", .str "Employee"), ("data", .obj [("x", .num 1)])]) =
      .ok ⟨.obj [("x", .num 1)], [legacyWarning "Employee"], false⟩ :=
  reviver_legacy_unwrap (fun _ => none) id ""
    (.obj [("ctor", .str "Employee"), ("data", .obj [("x", .num 1)])])
    ⟨"Employee", .obj [("x", .num 1)]⟩ rfl rfl (by decide)

/-- C5 counterexample: the claim says the migration-function branch (tag
"ActionIdentifier") logs a compatibility warning, but in the source that
`case` returns `loadActionIdentifier(value.data)` directly without any
`console.warn`: the warning list of the outcome is empty. -/
theorem reviver_action_identifier_no_warning :
    Reviver (fun _ => none) (fun d => d) ""
        (.obj [("ctor", .str "ActionIdentifier"), ("data", .null)]) =
      .ok ⟨.null, [], false⟩ := by
  rfl

/-- C5 (amended): for every envelope whose tag is the legacy
migration-function entry "ActionIdentifier" (and is not registered),
`Reviver` returns the migration function's output applied to the
envelope's `data`, but logs no compatibility warning. -/
theorem reviver_action_identifier_migration (registry : Registry)
    (loadActionIdentifier : JSValue → JSValue) (key : String) (value : JSValue)
    (rv : IReviverValue) (hrv : isReviverValue value = some rv)
    (hreg : registry rv.ctor = none) (hctor : rv.ctor = "ActionIdentifier") :
    Reviver registry loadActionIdentifier key value =
      .ok ⟨loadActionIdentifier rv.data, [], false⟩ := by
  rw [hctor] at hreg
  simp [Reviver, hrv, hreg, hctor,
    (by decide : "ActionIdentifier" ∉ legacyUnwrapTags)]

/-- Witness for C5 (amended): with the identity migration function, the
envelope's data comes back with an empty warning list. -/
theorem reviver_action_identifier_migration_witness :
    Reviver (fun _ => none) id ""
        (.obj [("ctor", .str "ActionIdentifier"), ("data", .num 7)]) =
      .ok ⟨.num 7, [], false⟩ :=
  reviver_action_identifier_migration (fun _ => none) id ""
    (.obj [("ctor", .str "ActionIdentifier"), ("data", .num 7)])
    ⟨"ActionIdentifier", .num 7⟩ rfl rfl rfl

/-- C9: for every envelope whose tag is found in the registry, `Reviver`
invokes that entry's `fromJSON` on the envelope; with a declared
validation schema the reconstructed instance is validated — a mismatch
raises the Validation error and no instance is returned — and with no
schema the `fromJSON` result is returned without validation. -/
theorem reviver_registered (registry : Registry)
    (loadActionIdentifier : JSValue → JSValue) (key : String) (value : JSValue)
    (rv : IReviverValue) (entry : JsonableCtor)
    (hrv : isReviverValue value = some rv) (hreg : registry rv.ctor = some entry) :
    (entry.validationData = none →
      Reviver registry loadActionIdentifier key value =
        .ok ⟨entry.fromJSON rv, [], true⟩) ∧
    (∀ check, entry.validationData = some check → check (entry.fromJSON rv) = true →
      Reviver registry loadActionIdentifier key value =
        .ok ⟨entry.fromJSON rv, [], true⟩) ∧
    (∀ check, entry.validationData = some check → check (entry.fromJSON rv) = false →
      Reviver registry loadActionIdentifier key value = .error .validationError) := by
  refine ⟨fun hv => ?_, fun check hv hc => ?_, fun check hv hc => ?_⟩
  · simp [Reviver, hrv, hreg, hv]
  · simp [Reviver, hrv, hreg, hv, validateObject, hc]
  · simp [Reviver, hrv, hreg, hv, validateObject, hc]

/-- Witness for C9: the spec's validation-gate example — a registered type
whose schema requires numeric data raises the Validation error on the
string "not-a-number". -/
theorem reviver_registered_witness :
    Reviver sampleRegistry id ""
        (.obj [("ctor", .str "Widget"), ("data", .str "not-a-number")]) =
      .error .validationError :=
  (reviver_registered sampleRegistry id ""
      (.obj [("ctor", .str "Widget"), ("data", .str "not-a-number")])
      ⟨"Widget", .str "not-a-number"⟩ sampleEntry rfl rfl).2.2
    sampleCheck rfl rfl

/-- C1: round trip — for every type with default field state `ctorDefault`
and field set `K`, and every valid instance `x` (valid: every field of `K`
holds a defined value on `x`), reviving the envelope produced by the
generic serializer reconstructs `x` field-wise:
`Generic_fromJSON(T, (Generic_toJSON(tag, x, K)).data, K)` equals `x` on
every field in `K`. -/
theorem generic_round_trip (tag : String) (x ctorDefault : List (String × JSValue))
    (K : List String) (hvalid : ∀ k ∈ K, lookupField x k ≠ .undefined) :
    ∃ y, Generic_fromJSON ctorDefault (Generic_toJSON tag x (some K)).data (some K) =
        .ok y ∧
      ∀ k ∈ K, lookupField y k = lookupField x k := by
  refine ⟨_, rfl, fun k hk => ?_⟩
  have hD : lookupField (K.foldl (fun d k2 => setField d k2 (lookupField x k2)) []) k
      = lookupField x k := by
    rw [lookupField_foldl_save, if_pos hk]
  rw [lookupField_foldl_load, hD,
    if_pos ⟨hk, (isUndefined_eq_false _).mpr (hvalid k hk)⟩]

/-- Witness for C1: a one-field instance survives the round trip. -/
theorem generic_round_trip_witness :
    ∃ y, Generic_fromJSON [("a", .num 0)]
        (Generic_toJSON "T" [("a", .num 5)] (some ["a"])).data (some ["a"]) = .ok y ∧
      ∀ k ∈ ["a"], lookupField y k = lookupField [("a", .num 5)] k :=
  generic_round_trip "T" [("a", .num 5)] [("a", .num 0)] ["a"] (by
    intro k hk
    rw [List.mem_singleton] at hk
    subst hk
    simp [lookupField, getField])

/-- C6 counterexample: the claim says every field of the data that is in
the allow-list overwrites the default unconditionally, but a field whose
value in the data is `undefined` is skipped by the `val !== undefined`
guard: with default `a = 1` and data `{a: undefined}`, the instance keeps
`a = 1` rather than taking the data's value. -/
theorem generic_fromJSON_undefined_skipped :
    Generic_fromJSON [("a", .num 1)] (.obj [("a", .undefined)]) (some ["a"]) =
      .ok [("a", .num 1)] ∧
    lookupField [("a", .num 1)] "a" ≠ lookupField [("a", .undefined)] "a" := by
  refine ⟨rfl, ?_⟩
  simp [lookupField, getField]

/-- C6 (amended): `Generic_fromJSON` on structured data `d` returns an
instance where a field absent from `d` (or outside the allow-list, or
present in `d` with the literal value `undefined` when an allow-list is
given) retains the default value; an allow-listed field of `d` with a
defined value overwrites the default; and without an allow-list every
field of `d` — `undefined`-valued ones included — overwrites
unconditionally. -/
theorem generic_fromJSON_field_semantics (ctorDefault d : List (String × JSValue))
    (keys : Option (List String)) (hnd : (d.map Prod.fst).Nodup) :
    ∃ y, Generic_fromJSON ctorDefault (.obj d) keys = .ok y ∧
      ∀ k, lookupField y k =
        match keys with
        | some ks =>
          if k ∈ ks ∧ isUndefined (lookupField d k) = false then lookupField d k
          else lookupField ctorDefault k
        | none => (getField d k).getD (lookupField ctorDefault k) := by
  cases keys with
  | none =>
    exact ⟨_, rfl, fun k => lookupField_foldl_entries d ctorDefault k hnd⟩
  | some ks =>
    exact ⟨_, rfl, fun k => lookupField_foldl_load ks d ctorDefault k⟩

/-- Witness for C6 (amended): default `a = 1, b = 2`, data `{a: 7}`,
allow-list `[a]`. -/
theorem generic_fromJSON_field_semantics_witness :
    ∃ y, Generic_fromJSON [("a", .num 1), ("b", .num 2)] (.obj [("a", .num 7)])
        (some ["a"]) = .ok y ∧
      ∀ k, lookupField y k =
        if k ∈ ["a"] ∧ isUndefined (lookupField [("a", JSValue.num 7)] k) = false
        then lookupField [("a", JSValue.num 7)] k
        else lookupField [("a", JSValue.num 1), ("b", JSValue.num 2)] k :=
  generic_fromJSON_field_semantics [("a", .num 1), ("b", .num 2)] [("a", .num 7)]
    (some ["a"]) (by decide)

/-- C7 counterexample: the claim says a field of the allow-list missing
from the source object is omitted from the envelope's `data`, but the
copy loop assigns `data[key] = obj[key]` unconditionally and assigning
the `undefined` read of a missing key creates the key: serializing the
empty object with allow-list `[a]` yields data in which the field `a` is
present, holding `undefined`. -/
theorem generic_toJSON_missing_key_present :
    (Generic_toJSON "T" [] (some ["a"])).data = .obj [("a", .undefined)] ∧
    getField [("a", .undefined)] "a" = some .undefined := by
  exact ⟨rfl, rfl⟩

/-- C7 (amended): with an allow-list `ks` the envelope's `data` carries
exactly the keys of `ks` regardless of extra fields on the source object
— a key of `ks` missing from the object is present in `data` holding
`undefined` (not defaulted, and dropped by later JSON stringification) —
and each key of `ks` holds the source object's property value; without an
allow-list every own enumerable field of the object is copied, and
nothing else. -/
theorem generic_toJSON_exact_fields (tag : String) (o : List (String × JSValue)) :
    (∀ ks : List String, ∃ D, Generic_toJSON tag o (some ks) = ⟨tag, .obj D⟩ ∧
       ∀ k, getField D k = if k ∈ ks then some (lookupField o k) else none) ∧
    ((o.map Prod.fst).Nodup → ∃ D, Generic_toJSON tag o none = ⟨tag, .obj D⟩ ∧
       ∀ k, getField D k = getField o k) := by
  constructor
  · intro ks
    refine ⟨_, rfl, fun k => ?_⟩
    rw [getField_foldl_save]
    by_cases h : k ∈ ks
    · rw [if_pos h, if_pos h]
    · rw [if_neg h, if_neg h]; rfl
  · intro hnd
    refine ⟨_, rfl, fun k => ?_⟩
    rw [getField_foldl_entries o [] k hnd]
    cases getField o k <;> rfl

/-- Witness for C7 (amended): serializing `{a: 5, b: 6}` with allow-list
`[a]` and with no allow-list. -/
theorem generic_toJSON_exact_fields_witness :
    (∃ D, Generic_toJSON "T" [("a", JSValue.num 5), ("b", JSValue.num 6)] (some ["a"]) =
        ⟨"T", .obj D⟩ ∧
      ∀ k, getField D k =
        if k ∈ ["a"] then some (lookupField [("a", JSValue.num 5), ("b", JSValue.num 6)] k)
        else none) ∧
    (∃ D, Generic_toJSON "T" [("a", JSValue.num 5), ("b", JSValue.num 6)] none =
        ⟨"T", .obj D⟩ ∧
      ∀ k, getField D k = getField [("a", JSValue.num 5), ("b", JSValue.num 6)] k) :=
  ⟨(generic_toJSON_exact_fields "T" [("a", .num 5), ("b", .num 6)]).1 ["a"],
   (generic_toJSON_exact_fields "T" [("a", .num 5), ("b", .num 6)]).2 (by decide)⟩

/-- C8: `Generic_fromJSON` raises the TypeAssertion error exactly when the
raw data it is handed is not a non-null structured (object) value; on
structured data it never raises and returns a constructed instance. -/
theorem generic_fromJSON_type_assertion (ctorDefault : List (String × JSValue))
    (data : JSValue) (keys : Option (List String)) :
    (Generic_fromJSON ctorDefault data keys = .error .typeAssertion ↔
      ∀ fs : List (String × JSValue), data ≠ .obj fs) ∧
    (∀ fs, data = .obj fs → ∃ y, Generic_fromJSON ctorDefault data keys = .ok y) := by
  cases data with
  | obj fs =>
    refine ⟨⟨fun h => ?_, fun h => absurd rfl (h fs)⟩, fun fs' hfs => ?_⟩
    · cases keys <;> simp [Generic_fromJSON, objectAssert] at h
    · cases keys <;> exact ⟨_, rfl⟩
  | undefined => exact ⟨⟨fun _ fs h => JSValue.noConfusion h, fun _ => rfl⟩,
      fun fs h => JSValue.noConfusion h⟩
  | null => exact ⟨⟨fun _ fs h => JSValue.noConfusion h, fun _ => rfl⟩,
      fun fs h => JSValue.noConfusion h⟩
  | bool b => exact ⟨⟨fun _ fs h => JSValue.noConfusion h, fun _ => rfl⟩,
      fun fs h => JSValue.noConfusion h⟩
  | num n => exact ⟨⟨fun _ fs h => JSValue.noConfusion h, fun _ => rfl⟩,
      fun fs h => JSValue.noConfusion h⟩
  | str s => exact ⟨⟨fun _ fs h => JSValue.noConfusion h, fun _ => rfl⟩,
      fun fs h => JSValue.noConfusion h⟩
  | arr elems => exact ⟨⟨fun _ fs h => JSValue.noConfusion h, fun _ => rfl⟩,
      fun fs h => JSValue.noConfusion h⟩

/-- Witness for C8: a string input raises the TypeAssertion error, an
object input is accepted. -/
theorem generic_fromJSON_type_assertion_witness :
    Generic_fromJSON [] (.str "nope") none = .error .typeAssertion ∧
    ∃ y, Generic_fromJSON [] (.obj [("a", JSValue.num 3)]) none = .ok y :=
  ⟨(generic_fromJSON_type_assertion [] (.str "nope") none).1.mpr
      (fun _ h => JSValue.noConfusion h),
   (generic_fromJSON_type_assertion [] (.obj [("a", JSValue.num 3)]) none).2
      [("a", JSValue.num 3)] rfl⟩

/-- C10 (implicit): `Generic_fromJSON` treats a data field holding the
literal value `undefined` asymmetrically — with an allow-list containing
the field it is skipped and the instance keeps the default value, whereas
without an allow-list the `undefined` is assigned onto the instance,
overwriting the default. -/
theorem generic_fromJSON_undefined_asymmetry (ctorDefault d : List (String × JSValue))
    (K : List String) (k : String) (_hmem : k ∈ K)
    (hu : getField d k = some .undefined) (hnd : (d.map Prod.fst).Nodup) :
    (∃ y, Generic_fromJSON ctorDefault (.obj d) (some K) = .ok y ∧
       lookupField y k = lookupField ctorDefault k) ∧
    (∃ z, Generic_fromJSON ctorDefault (.obj d) none = .ok z ∧
       lookupField z k = .undefined) := by
  constructor
  · refine ⟨_, rfl, ?_⟩
    rw [lookupField_foldl_load,
      if_neg (fun hc => by
        rw [lookupField, hu] at hc
        exact Bool.noConfusion (hc.2 : (true : Bool) = false))]
  · refine ⟨_, rfl, ?_⟩
    rw [lookupField_foldl_entries d ctorDefault k hnd, hu]
    rfl

/-- Witness for C10: default `a = 1`, data `{a: undefined}`: the
allow-list load keeps `a = 1`, the unrestricted load sets `a` to
`undefined`. -/
theorem generic_fromJSON_undefined_asymmetry_witness :
    (∃ y, Generic_fromJSON [("a", .num 1)] (.obj [("a", .undefined)]) (some ["a"]) = .ok y ∧
       lookupField y "a" = lookupField [("a", JSValue.num 1)] "a") ∧
    (∃ z, Generic_fromJSON [("a", .num 1)] (.obj [("a", .undefined)]) none = .ok z ∧
       lookupField z "a" = .undefined) :=
  generic_fromJSON_undefined_asymmetry [("a", .num 1)] [("a", .undefined)] ["a"] "a"
    (by decide) rfl (by decide)

end SaveRevive
